import Mathlib

set_option maxRecDepth 4000

/-!
Verification development for the HTTP transport and token-refresh
coordination layer of the yorauth js-sdk (file src/http.ts, class
HttpClient), together with the pieces of src/errors.ts and src/client.ts
it relies on.

The development is a shallow embedding:

* JSON values returned by JSON.parse are modelled by the inductive `Json`;
  JavaScript property access, nullish coalescing and truthiness are
  modelled by `jsGet`, `jsNullish` and `truthy`.
* `YorAuthError` mirrors the error class of src/errors.ts (message, code,
  status, optional details).  Since the runtime casts in src/http.ts do
  not check anything, message and code are modelled as arbitrary JSON
  values; in all ordinary paths they are strings.
* One network dispatch is modelled by `doRequest`, a pure function of the
  nondeterministically chosen `FetchOutcome` of the underlying fetch call.
* A full logical `HttpClient.request` call is modelled twice, at two
  granularities:
  - `requestRun`, a sequential function of the outcomes of the (at most
    three) network dispatches a single call can perform, used for the
    error-handling and retry claims; and
  - a small-step transition system (`Step`, `Reach`) over `n` concurrent
    logical requests sharing the one pending-refresh handle
    (`refreshPromise` in the source), used for the concurrency claims.
-/

/-- JSON values as produced by JSON.parse.  Numbers are modelled as
integers (no claim inspects numeric values beyond truthiness of 0).
Objects are post-parse, so keys are unique and lookup returns the first
(= only) binding. -/
inductive Json where
  | null
  | bool (b : Bool)
  | num (n : Int)
  | str (s : String)
  | arr (elems : List Json)
  | obj (fields : List (String × Json))

/-- JavaScript property access `v[k]` for the keys used by src/http.ts:
`none` models the JavaScript value undefined (absent property).  Access
on primitives and arrays yields undefined for these keys; access on null
throws and is handled explicitly at each call site, exactly where the
source can crash. -/
def jsGet : Json → String → Option Json
  | .obj fields, k => (fields.find? (fun p => p.1 == k)).map (fun p => p.2)
  | _, _ => none

/-- JavaScript truthiness of a value (undefined is handled by
`optTruthy`).  NaN does not arise in the integer model. -/
def truthy : Json → Bool
  | .null => false
  | .bool b => b
  | .num n => !(n == 0)
  | .str s => !(s == "")
  | .arr _ => true
  | .obj _ => true

/-- Truthiness of a possibly-undefined value. -/
def optTruthy : Option Json → Bool
  | none => false
  | some j => truthy j

/-- The JavaScript nullish-coalescing operator `v ?? d` where `v` is a
possibly-undefined property. -/
def jsNullish (v : Option Json) (d : Json) : Json :=
  match v with
  | none => d
  | some .null => d
  | some x => x

/-- The test `errorObj && typeof errorObj === "object"` from
HttpClient.handleErrorResponse: true exactly for (non-null) objects and
arrays. -/
def isObjTruthy : Option Json → Bool
  | some (.obj _) => true
  | some (.arr _) => true
  | _ => false

/-- The structured error of src/errors.ts (class YorAuthError extends
Error): message, machine-readable code, HTTP status (0 for non-HTTP
failures), optional validation details.  The `as string` casts in
src/http.ts are runtime no-ops, so message and code hold whatever JSON
value the server sent; `details` is `none` when the argument was
undefined. -/
structure YorAuthError where
  message : Json
  code : Json
  status : Nat
  details : Option Json

/-- Runtime failures that the translator itself can raise (they are then
converted to NETWORK_ERROR by the catch block of HttpClient.doRequest):
accessing a property of a null body, and response.json() rejecting on a
body that is not valid JSON. -/
inductive RtErr where
  | nullAccess
  | jsonParse

/-- Message text of the runtime failures.  The concrete strings are
engine specific; no claim depends on them. -/
def rtMsg : RtErr → String
  | .nullAccess => "Cannot read properties of null (reading 'error')"
  | .jsonParse => "Unexpected end of JSON input"

/-- Boolean test that `pat` occurs as a contiguous sublist of `l`. -/
def listContains (pat : List Char) : List Char → Bool
  | [] => pat.isPrefixOf []
  | c :: t => pat.isPrefixOf (c :: t) || listContains pat t

/-- JavaScript `s.includes(pat)` (used on the content-type header). -/
def containsSubstr (s pat : String) : Bool := listContains pat.data s.data

/-- HttpClient.handleErrorResponse: parse a non-2xx response and build a
YorAuthError (the source throws it; here it is returned in `Except.ok`,
while `Except.error` models the translator itself crashing).  Branches in
source order: wrapped error object, Laravel validation shape, OIDC string
error, generic JSON fallback, then the non-JSON text branch. -/
def handleErrorResponse (status : Nat) (statusText : String) (isJson : Bool)
    (jsonBody : Option Json) (textBody : String) : Except RtErr YorAuthError :=
  if isJson then
    match jsonBody with
    | none => .error .jsonParse
    | some .null => .error .nullAccess
    | some body =>
      match jsGet body "error" with
      | some (.obj fs) =>
        .ok ⟨jsNullish (jsGet (.obj fs) "message") (.str statusText),
             jsNullish (jsGet (.obj fs) "code") (.str ("HTTP_" ++ toString status)),
             status, jsGet (.obj fs) "details"⟩
      | some (.arr xs) =>
        .ok ⟨jsNullish (jsGet (.arr xs) "message") (.str statusText),
             jsNullish (jsGet (.arr xs) "code") (.str ("HTTP_" ++ toString status)),
             status, jsGet (.arr xs) "details"⟩
      | eo =>
        if optTruthy (jsGet body "message") && optTruthy (jsGet body "errors") then
          .ok ⟨(jsGet body "message").getD .null, .str "VALIDATION_ERROR",
               status, jsGet body "errors"⟩
        else
          match eo with
          | some (.str s) =>
            .ok ⟨jsNullish (jsGet body "error_description") (.str s), .str s,
                 status, none⟩
          | _ =>
            .ok ⟨jsNullish (jsGet body "message") (.str statusText),
                 .str ("HTTP_" ++ toString status), status, none⟩
  else
    .ok ⟨.str (if textBody == "" then statusText else textBody),
         .str ("HTTP_" ++ toString status), status, none⟩

/-- Outcome of one underlying fetch call, chosen by the environment:
either an HTTP response (status, statusText, content-type header or
absent, the body as parsed JSON when it parses plus its raw text), or an
AbortError DOMException (the timeout fired and aborted the call), or any
other rejection (an Error carrying a message, or a non-Error value). -/
inductive FetchOutcome where
  | response (status : Nat) (statusText : String) (contentType : Option String)
      (jsonBody : Option Json) (textBody : String)
  | abortError
  | failure (message : Option String)

/-- HttpClient.doRequest, the internal dispatch path: no 401 recovery.
Returns the parsed body (`some j`), undefined (`none`, for 204 and
non-JSON successes), or a YorAuthError.  Every rejection, including
runtime failures of the translator, is wrapped; callers never see a raw
failure. -/
def doRequest (timeout : Nat) (out : FetchOutcome) :
    Except YorAuthError (Option Json) :=
  match out with
  | .abortError =>
    .error ⟨.str ("Request timed out after " ++ toString timeout ++ "ms"),
            .str "REQUEST_TIMEOUT", 0, none⟩
  | .failure msg =>
    .error ⟨.str (msg.getD "An unknown error occurred"), .str "NETWORK_ERROR", 0, none⟩
  | .response status statusText contentType jsonBody textBody =>
    if status = 204 then .ok none
    else
      let isJson := containsSubstr (contentType.getD "") "application/json"
      if 200 ≤ status ∧ status < 300 then
        if isJson then
          match jsonBody with
          | some j => .ok (some j)
          | none =>
            .error ⟨.str (rtMsg .jsonParse), .str "NETWORK_ERROR", 0, none⟩
        else .ok none
      else
        match handleErrorResponse status statusText isJson jsonBody textBody with
        | .ok e => .error e
        | .error rt => .error ⟨.str (rtMsg rt), .str "NETWORK_ERROR", 0, none⟩

/-- The TokenRefreshResult assembled by HttpClient.doRefresh from the
refresh endpoint envelope { data: { access_token, refresh_token,
expires_in, user? } }.  The fields are plain property reads, so each is a
possibly-undefined JSON value. -/
structure TokenRefreshResult where
  accessToken : Option Json
  refreshToken : Option Json
  expiresIn : Option Json
  user : Option Json

/-- Field extraction performed by HttpClient.doRefresh on the parsed
refresh response `response.data.access_token` etc.  `Except.error ()`
models the extraction itself throwing: reading `.data` of an undefined or
null response, or reading `.access_token` of an undefined or null data
field.  The thrown value is irrelevant: request discards every failure of
the refresh path. -/
def extractRefresh : Option Json → Except Unit TokenRefreshResult
  | none => .error ()
  | some .null => .error ()
  | some body =>
    match jsGet body "data" with
    | none => .error ()
    | some .null => .error ()
    | some d =>
      .ok ⟨jsGet d "access_token", jsGet d "refresh_token",
           jsGet d "expires_in", jsGet d "user"⟩

/-- HttpClient.doRefresh: POST the scoped refresh path through the
internal dispatch (doRequest — no 401 recovery), then extract the token
fields.  Any failure, HTTP error or extraction crash alike, is collapsed
to `Except.error ()` because request's catch discards it. -/
def doRefreshRun (timeout : Nat) (out : FetchOutcome) :
    Except Unit TokenRefreshResult :=
  match doRequest timeout out with
  | .error _ => .error ()
  | .ok v => extractRefresh v

/-- Environment of one sequential logical request: whether
getRefreshToken() returns a truthy value at the moment the 401 is caught,
and the network outcomes of the at most three dispatches the call can
make (first attempt, refresh call, retry). -/
structure Env where
  refreshAvailable : Bool
  first : FetchOutcome
  refreshResp : FetchOutcome
  retry : FetchOutcome

/-- Observable events of one sequential logical request: a network
dispatch of the caller's own request (first attempt or retry), the
refresh network call, and the invocation of the onRefreshSuccess hook. -/
inductive Ev where
  | dispatchOwn
  | dispatchRefresh
  | hookCall
deriving DecidableEq

/-- HttpClient.request for a single logical call: first dispatch through
doRequest; on a YorAuthError with status 401 while a refresh token is
available, await the refresh, invoke onRefreshSuccess and retry once.
The try block of the source wraps the refresh AND the retry, so a
failure of either one is caught and the ORIGINAL 401 error is rethrown.
Returns the final result and the chronological event list. -/
def requestRun (timeout : Nat) (env : Env) :
    Except YorAuthError (Option Json) × List Ev :=
  match doRequest timeout env.first with
  | .ok v => (.ok v, [.dispatchOwn])
  | .error e =>
    if e.status = 401 ∧ env.refreshAvailable = true then
      match doRefreshRun timeout env.refreshResp with
      | .ok _r =>
        match doRequest timeout env.retry with
        | .ok v => (.ok v, [.dispatchOwn, .dispatchRefresh, .hookCall, .dispatchOwn])
        | .error _e2 =>
          (.error e, [.dispatchOwn, .dispatchRefresh, .hookCall, .dispatchOwn])
      | .error _u => (.error e, [.dispatchOwn, .dispatchRefresh])
    else (.error e, [.dispatchOwn])

/-- Count of the caller's own dispatches in an event list. -/
def countOwn (l : List Ev) : Nat :=
  l.countP (fun e => match e with | .dispatchOwn => true | _ => false)

/-- Count of refresh dispatches in an event list. -/
def countRefresh (l : List Ev) : Nat :=
  l.countP (fun e => match e with | .dispatchRefresh => true | _ => false)

/-!  URL building (HttpClient.constructor, buildAppUrl, buildRootUrl).  -/

/-- The constructor normalisation `config.baseUrl.replace(/\/+$/, "")`:
remove the maximal trailing run of slashes. -/
def stripTrailingSlashes (s : String) : String :=
  String.mk ((s.data.reverse.dropWhile (fun c => c == '/')).reverse)

/-- The path normalisation `path.replace(/^\/+/, "")` shared by
buildAppUrl and buildRootUrl: remove the maximal leading run of
slashes. -/
def stripLeadingSlashes (s : String) : String :=
  String.mk (s.data.dropWhile (fun c => c == '/'))

/-- JavaScript `s.endsWith(t)`. -/
def strEndsWith (s t : String) : Bool := t.data.isSuffixOf s.data

/-- JavaScript `s.startsWith(t)`. -/
def strStartsWith (s t : String) : Bool := t.data.isPrefixOf s.data

/-- JavaScript `s.slice(k)` for the ASCII slices used here. -/
def strDropChars (s : String) (k : Nat) : String := String.mk (s.data.drop k)

/-- The baseUrl field as set by the HttpClient constructor. -/
def mkBaseUrl (configBaseUrl : String) : String := stripTrailingSlashes configBaseUrl

/-- HttpClient.buildAppUrl. -/
def buildAppUrl (baseUrl applicationId path : String) : String :=
  baseUrl ++ "/api/v1/applications/" ++ applicationId ++ "/" ++ stripLeadingSlashes path

/-- HttpClient.buildRootUrl, including its tolerance for a baseUrl that
already ends in /api. -/
def buildRootUrl (baseUrl path : String) : String :=
  let cleanPath := stripLeadingSlashes path
  if cleanPath = "" then baseUrl
  else if cleanPath = "api" ∧ strEndsWith baseUrl "/api" = true then baseUrl
  else if strStartsWith cleanPath "api/" = true ∧ strEndsWith baseUrl "/api" = true then
    baseUrl ++ "/" ++ strDropChars cleanPath 4
  else baseUrl ++ "/" ++ cleanPath

/-- Last character of a string, if any. -/
def lastChar (s : String) : Option Char := s.data.getLast?

/-- First character of a string, if any. -/
def headChar (s : String) : Option Char := s.data.head?

/-!  Concurrency model.

Multiple logical requests run under JavaScript's single-threaded
cooperative scheduling: a task is interrupted only at its awaits (network
dispatches and awaiting the shared refresh promise).  The shared state of
HttpClient is the single pending-refresh handle `refreshPromise`; the
Boolean `pending` below models `refreshPromise != null` while a refresh
network call is outstanding.  In attemptTokenRefresh the test of
`refreshPromise` and its assignment run with no await between them, so
observing the 401 and joining-or-creating the handle is one atomic step
(obsJoin / obsCreate).  The resolve step models the refresh promise
settling together with the owner's finally block clearing the handle, and
broadcasts the outcome to every awaiting task.  A resumed task then runs
synchronously up to its next await: on success it calls onRefreshSuccess
and dispatches its retry (one atomic step, wakeOk); on failure it
rethrows its own original 401 (wakeErr).  On a failed retry the original
401 is rethrown, because the catch in request wraps the retry as well
(retryDone).  The first dispatch of every task is left implicit: tasks
start in `inflight`.  -/

/-- Resolution of the shared refresh coordination, broadcast to every
awaiting task: success with the extracted TokenRefreshResult, or failure
(whose content request discards). -/
inductive ROutcome where
  | ok (r : TokenRefreshResult)
  | err

/-- State of one logical request task. -/
inductive TState where
  | inflight
  | waiting (orig : YorAuthError)
  | resumed (orig : YorAuthError) (o : ROutcome)
  | retrying (orig : YorAuthError) (r : TokenRefreshResult)
  | finished (res : Except YorAuthError (Option Json)) (used : Option ROutcome)

/-- Observable events of the concurrent system, newest first in the
trace: a task observing a 401 and entering recovery, the issuing of a
refresh network call, the settling of the shared refresh, an
onRefreshSuccess invocation by a task, and a task dispatching its
retry. -/
inductive CEv (n : Nat) where
  | obs (i : Fin n)
  | refreshCall
  | resolve (o : ROutcome)
  | hookEv (i : Fin n)
  | retryDispatch (i : Fin n)

/-- Global state: the pending-refresh handle, the task states, and the
event trace (newest first). -/
structure Sys (n : Nat) where
  pending : Bool
  tasks : Fin n → TState
  trace : List (CEv n)

/-- Initial state: no refresh pending, every task's first dispatch in
flight, empty trace. -/
def Sys.init (n : Nat) : Sys n := ⟨false, fun _ => .inflight, []⟩

/-- Delivery of the refresh resolution to one task: tasks awaiting the
promise resume with its outcome, all others are untouched. -/
def deliver (o : ROutcome) : TState → TState
  | .waiting e => .resumed e o
  | t => t

/-- Small-step transition relation of n concurrent logical requests over
the shared refresh handle.  The network and the token store are the
nondeterministic environment: response outcomes, and whether a refresh
token is available when a 401 arrives (respErrNoRecover covers both a
non-401 error and a 401 with no refresh token). -/
inductive Step {n : Nat} : Sys n → Sys n → Prop where
  | respOk (s : Sys n) (i : Fin n) (v : Option Json)
      (h : s.tasks i = .inflight) :
      Step s ⟨s.pending, Function.update s.tasks i (.finished (.ok v) none), s.trace⟩
  | respErrNoRecover (s : Sys n) (i : Fin n) (e : YorAuthError)
      (h : s.tasks i = .inflight) :
      Step s ⟨s.pending, Function.update s.tasks i (.finished (.error e) none), s.trace⟩
  | obsCreate (s : Sys n) (i : Fin n) (e : YorAuthError)
      (h : s.tasks i = .inflight) (he : e.status = 401) (hp : s.pending = false) :
      Step s ⟨true, Function.update s.tasks i (.waiting e),
              .refreshCall :: .obs i :: s.trace⟩
  | obsJoin (s : Sys n) (i : Fin n) (e : YorAuthError)
      (h : s.tasks i = .inflight) (he : e.status = 401) (hp : s.pending = true) :
      Step s ⟨true, Function.update s.tasks i (.waiting e), .obs i :: s.trace⟩
  | resolve (s : Sys n) (o : ROutcome) (hp : s.pending = true) :
      Step s ⟨false, fun j => deliver o (s.tasks j), .resolve o :: s.trace⟩
  | wakeOk (s : Sys n) (i : Fin n) (e : YorAuthError) (r : TokenRefreshResult)
      (h : s.tasks i = .resumed e (.ok r)) :
      Step s ⟨s.pending, Function.update s.tasks i (.retrying e r),
              .retryDispatch i :: .hookEv i :: s.trace⟩
  | wakeErr (s : Sys n) (i : Fin n) (e : YorAuthError)
      (h : s.tasks i = .resumed e .err) :
      Step s ⟨s.pending, Function.update s.tasks i (.finished (.error e) (some .err)),
              s.trace⟩
  | retryDone (s : Sys n) (i : Fin n) (e : YorAuthError) (r : TokenRefreshResult)
      (out : Except YorAuthError (Option Json))
      (h : s.tasks i = .retrying e r) :
      Step s ⟨s.pending,
              Function.update s.tasks i
                (.finished (match out with | .ok v => .ok v | .error _ => .error e)
                  (some (.ok r))),
              s.trace⟩

/-- Reachability from the initial state. -/
inductive Reach {n : Nat} : Sys n → Prop where
  | init : Reach (Sys.init n)
  | step {s s' : Sys n} : Reach s → Step s s' → Reach s'

/-- Is this event a refresh network call? -/
def isCall {n : Nat} : CEv n → Bool
  | .refreshCall => true
  | _ => false

/-- Is this event a refresh resolution? -/
def isResolveEv {n : Nat} : CEv n → Bool
  | .resolve _ => true
  | _ => false

/-- Is this event a 401 observation entering recovery? -/
def isObs {n : Nat} : CEv n → Bool
  | .obs _ => true
  | _ => false

/-- Is this event an onRefreshSuccess invocation (by any task)? -/
def isHookEv {n : Nat} : CEv n → Bool
  | .hookEv _ => true
  | _ => false

/-- Number of refresh network calls issued so far. -/
def countCalls {n : Nat} (l : List (CEv n)) : Nat := l.countP isCall

/-- Number of refresh resolutions so far. -/
def countResolves {n : Nat} (l : List (CEv n)) : Nat := l.countP isResolveEv

/-- Number of 401 observations that entered recovery so far. -/
def countObs {n : Nat} (l : List (CEv n)) : Nat := l.countP isObs

/-- Total number of onRefreshSuccess invocations so far. -/
def countHooks {n : Nat} (l : List (CEv n)) : Nat := l.countP isHookEv

/-- Number of onRefreshSuccess invocations performed by task i. -/
def countHookI {n : Nat} (i : Fin n) (l : List (CEv n)) : Nat :=
  l.countP (fun e => match e with | .hookEv j => j == i | _ => false)

/-- True when, chronologically, every 401 observation happened before
every refresh resolution (the trace is newest first, so it demands that
no resolve event is older than an obs event).  This is the hypothesis of
the deduplication claim: all n requests observe their 401 while the one
refresh is still pending. -/
def obsBeforeResolves {n : Nat} : List (CEv n) → Bool
  | [] => true
  | .obs _ :: rest => !(rest.any isResolveEv) && obsBeforeResolves rest
  | _ :: rest => obsBeforeResolves rest

/-- The refresh outcome a task has adopted (for tasks past the resolve),
used to state that all callers share one outcome. -/
def taskOutcome : TState → Option ROutcome
  | .resumed _ o => some o
  | .retrying _ r => some (.ok r)
  | .finished _ u => u
  | _ => none

/-- Number of onRefreshSuccess invocations a task in this state has
performed: exactly one once it has passed the refresh-success point. -/
def hookCnt : TState → Nat
  | .retrying _ _ => 1
  | .finished _ (some (.ok _)) => 1
  | _ => 0

/-- True when every retry dispatch in the (newest first) trace is
immediately preceded, chronologically, by that same task's
onRefreshSuccess invocation. -/
def hookBeforeRetry {n : Nat} : List (CEv n) → Bool
  | .retryDispatch i :: rest =>
    (match rest with
     | .hookEv j :: _ => i == j
     | _ => false) && hookBeforeRetry rest
  | _ :: rest => hookBeforeRetry rest
  | [] => true

/-!  Concrete values for witnesses and counterexamples.  -/

/-- Body {"error":{"message":"Token expired","code":"TOKEN_EXPIRED"}}. -/
def body401 : Json :=
  .obj [("error", .obj [("message", .str "Token expired"), ("code", .str "TOKEN_EXPIRED")])]

/-- A 401 response carrying body401. -/
def resp401 : FetchOutcome :=
  .response 401 "Unauthorized" (some "application/json") (some body401) ""

/-- The YorAuthError that doRequest builds from resp401. -/
def err401 : YorAuthError := ⟨.str "Token expired", .str "TOKEN_EXPIRED", 401, none⟩

/-- A successful refresh response with the expected envelope. -/
def refreshOkResp : FetchOutcome :=
  .response 200 "OK" (some "application/json")
    (some (.obj [("data", .obj [("access_token", .str "new-token"),
                                ("refresh_token", .str "new-refresh-token"),
                                ("expires_in", .num 3600)])]))
    ""

/-- The TokenRefreshResult extracted from refreshOkResp. -/
def refreshOkResult : TokenRefreshResult :=
  ⟨some (.str "new-token"), some (.str "new-refresh-token"), some (.num 3600), none⟩

/-- The refresh endpoint itself answering 401. -/
def refreshFailResp : FetchOutcome :=
  .response 401 "Unauthorized" (some "application/json")
    (some (.obj [("error", .obj [("message", .str "Invalid refresh token"),
                                 ("code", .str "INVALID_REFRESH_TOKEN")])]))
    ""

/-- A plain 200 JSON success response. -/
def resp200 : FetchOutcome :=
  .response 200 "OK" (some "application/json") (some (.obj [("data", .str "success")])) ""

/-- A 500 response for a failing retry. -/
def resp500 : FetchOutcome :=
  .response 500 "Internal Server Error" (some "application/json")
    (some (.obj [("error", .obj [("message", .str "boom"), ("code", .str "SERVER_ERROR")])]))
    ""

/-- The YorAuthError that doRequest builds from resp500. -/
def err500 : YorAuthError := ⟨.str "boom", .str "SERVER_ERROR", 500, none⟩

/-- A 404 response. -/
def resp404 : FetchOutcome :=
  .response 404 "Not Found" (some "application/json")
    (some (.obj [("error", .obj [("message", .str "User not found"),
                                 ("code", .str "USER_NOT_FOUND")])]))
    ""

/-- The YorAuthError that doRequest builds from resp404. -/
def err404 : YorAuthError := ⟨.str "User not found", .str "USER_NOT_FOUND", 404, none⟩

/-- Environment: first dispatch 401, refresh succeeds, retry succeeds. -/
def envHappyRefresh : Env := ⟨true, resp401, refreshOkResp, resp200⟩

/-- Environment: first dispatch 401, refresh succeeds, retry fails 500. -/
def envRetryFails : Env := ⟨true, resp401, refreshOkResp, resp500⟩

/-- Environment: first dispatch 401, refresh endpoint answers 401. -/
def envRefreshFails : Env := ⟨true, resp401, refreshFailResp, resp200⟩

/-- Environment: first dispatch 404 (no recovery applies). -/
def env404 : Env := ⟨true, resp404, refreshOkResp, resp200⟩

/-- Environment: first dispatch 401 but no refresh token configured. -/
def envNoToken : Env := ⟨false, resp401, refreshOkResp, resp200⟩

/-- Environment: the dispatch is aborted by the timeout. -/
def envTimeout : Env := ⟨true, .abortError, refreshOkResp, resp200⟩

/-- Environment: the dispatch fails with a connection error. -/
def envNetErr : Env := ⟨true, .failure (some "connect ECONNREFUSED"), refreshOkResp, resp200⟩

/-- Laravel-style validation body used by the C5 witness. -/
def bodyValidation : Json :=
  .obj [("message", .str "Validation failed"),
        ("errors", .obj [("email", .arr [.str "The email field is required."])])]

/-- A non-2xx JSON response whose body is the JSON literal null: the
translator crashes on it and doRequest wraps the crash. -/
def respNullBody : FetchOutcome :=
  .response 400 "Bad Request" (some "application/json") (some .null) "null"

/-!  A concrete interleaved execution of two concurrent requests that
both observe a 401 while the refresh token is available: task 0 creates
the pending refresh, task 1 joins it, the refresh succeeds, both wake
(each invoking onRefreshSuccess), both retries succeed.  -/

/-- Step 1: task 0 observes the 401 and creates the pending refresh. -/
def cs1 : Sys 2 :=
  ⟨true, Function.update (Sys.init 2).tasks 0 (.waiting err401),
   .refreshCall :: .obs 0 :: (Sys.init 2).trace⟩

/-- Step 2: task 1 observes the 401 and joins the pending refresh. -/
def cs2 : Sys 2 :=
  ⟨true, Function.update cs1.tasks 1 (.waiting err401), .obs 1 :: cs1.trace⟩

/-- Step 3: the refresh resolves successfully and is broadcast. -/
def cs3 : Sys 2 :=
  ⟨false, fun j => deliver (.ok refreshOkResult) (cs2.tasks j),
   .resolve (.ok refreshOkResult) :: cs2.trace⟩

/-- Step 4: task 0 wakes, invokes onRefreshSuccess, dispatches its retry. -/
def cs4 : Sys 2 :=
  ⟨cs3.pending, Function.update cs3.tasks 0 (.retrying err401 refreshOkResult),
   .retryDispatch 0 :: .hookEv 0 :: cs3.trace⟩

/-- Step 5: task 1 wakes, invokes onRefreshSuccess, dispatches its retry. -/
def cs5 : Sys 2 :=
  ⟨cs4.pending, Function.update cs4.tasks 1 (.retrying err401 refreshOkResult),
   .retryDispatch 1 :: .hookEv 1 :: cs4.trace⟩

/-- Step 6: task 0's retry succeeds. -/
def cs6 : Sys 2 :=
  ⟨cs5.pending,
   Function.update cs5.tasks 0 (.finished (.ok (some (.str "ok0"))) (some (.ok refreshOkResult))),
   cs5.trace⟩

/-- Step 7: task 1's retry succeeds; final state of the execution. -/
def cs7 : Sys 2 :=
  ⟨cs6.pending,
   Function.update cs6.tasks 1 (.finished (.ok (some (.str "ok1"))) (some (.ok refreshOkResult))),
   cs6.trace⟩

/-- Environment: plain 200 JSON success on the first dispatch. -/
def env200 : Env := ⟨true, resp200, refreshOkResp, resp200⟩

/-- Environment: 204 No Content on the first dispatch (with a non-JSON
content type and junk text body, which must be ignored). -/
def env204 : Env :=
  ⟨true, .response 204 "No Content" (some "text/plain") none "junk", refreshOkResp, resp200⟩

/-- Environment: 200 with a non-JSON content type. -/
def env200Text : Env :=
  ⟨true, .response 200 "OK" (some "text/html") none "<html></html>", refreshOkResp, resp200⟩

/-!  Theorems.  -/

/-- The head of a list after dropping leading slashes is never a slash. -/
theorem head_dropSlash_ne :
    ∀ (l : List Char) (c : Char),
      (l.dropWhile (fun x => x == '/')).head? = some c → (c == '/') = false := by
  intro l
  induction l with
  | nil => intro c h; simp [List.dropWhile] at h
  | cons a t ih =>
    intro c h
    rw [List.dropWhile_cons] at h
    by_cases hp : (a == '/') = true
    · rw [if_pos hp] at h; exact ih c h
    · rw [if_neg hp] at h
      simp only [List.head?_cons, Option.some.injEq] at h
      subst h
      exact Bool.not_eq_true _ ▸ (by simpa using hp)

/-- The normalised base URL never ends in a slash. -/
theorem mkBaseUrl_no_trailing_slash (b : String) : lastChar (mkBaseUrl b) ≠ some '/' := by
  intro h
  unfold lastChar mkBaseUrl stripTrailingSlashes at h
  rw [show (String.mk ((b.data.reverse.dropWhile (fun c => c == '/')).reverse)).data
        = (b.data.reverse.dropWhile (fun c => c == '/')).reverse from rfl,
      List.getLast?_reverse] at h
  have := head_dropSlash_ne _ _ h
  simp at this

/-- The cleaned path never starts with a slash. -/
theorem cleanPath_no_leading_slash (p : String) :
    headChar (stripLeadingSlashes p) ≠ some '/' := by
  intro h
  unfold headChar stripLeadingSlashes at h
  have := head_dropSlash_ne _ _ h
  simp at this

/-- C10 (amended): the constructor strips all trailing slashes from the
configured base URL, so the normalised base never ends in a slash and the
cleaned path never begins with one; hence buildAppUrl always joins the
base and its scoped path with exactly one slash, buildRootUrl joins the
base and the cleaned path with exactly one slash in every case that does
not take one of the two /api-deduplication branches, and buildRootUrl on
an empty or all-slash path returns the normalised base itself.  In the
/api-deduplication branches (base ending in /api): a cleaned path that is
exactly "api" returns the base alone, and a cleaned path starting with
"api/" has that prefix removed and the remainder joined to the base with
one slash (which re-introduces a doubled slash only when the cleaned path
continues with a further slash, see the counterexample). -/
theorem C10_url_building :
    ∀ (b a p : String),
      lastChar (mkBaseUrl b) ≠ some '/' ∧
      headChar (stripLeadingSlashes p) ≠ some '/' ∧
      buildAppUrl (mkBaseUrl b) a p
        = mkBaseUrl b ++ "/" ++ ("api/v1/applications/" ++ a ++ "/" ++ stripLeadingSlashes p) ∧
      (stripLeadingSlashes p = "" → buildRootUrl (mkBaseUrl b) p = mkBaseUrl b) ∧
      (stripLeadingSlashes p ≠ "" →
        ¬(strEndsWith (mkBaseUrl b) "/api" = true ∧
          (stripLeadingSlashes p = "api" ∨ strStartsWith (stripLeadingSlashes p) "api/" = true)) →
        buildRootUrl (mkBaseUrl b) p = mkBaseUrl b ++ "/" ++ stripLeadingSlashes p) ∧
      (strEndsWith (mkBaseUrl b) "/api" = true →
        strStartsWith (stripLeadingSlashes p) "api/" = true →
        buildRootUrl (mkBaseUrl b) p
          = mkBaseUrl b ++ "/" ++ strDropChars (stripLeadingSlashes p) 4) ∧
      (strEndsWith (mkBaseUrl b) "/api" = true →
        stripLeadingSlashes p = "api" →
        buildRootUrl (mkBaseUrl b) p = mkBaseUrl b) := by
  intro b a p
  refine ⟨mkBaseUrl_no_trailing_slash b, cleanPath_no_leading_slash p, ?_, ?_, ?_, ?_, ?_⟩
  · unfold buildAppUrl
    simp only [String.append_assoc]
    congr 1
  · intro h
    simp only [buildRootUrl]
    rw [if_pos h]
  · intro h1 h2
    simp only [buildRootUrl]
    rw [if_neg h1, if_neg (fun hh => h2 ⟨hh.2, Or.inl hh.1⟩),
        if_neg (fun hh => h2 ⟨hh.2, Or.inr hh.1⟩)]
  · intro he hs
    have hne : stripLeadingSlashes p ≠ "" := by
      intro h0; rw [h0] at hs; exact absurd hs (by decide)
    simp only [buildRootUrl]
    rw [if_neg hne,
        if_neg (fun hh => by rw [hh.1] at hs; exact absurd hs (by decide)),
        if_pos ⟨hs, he⟩]
  · intro he hc
    simp only [buildRootUrl]
    rw [hc]
    rw [if_neg (by decide), if_pos ⟨rfl, he⟩]

/-- C10 counterexample: with a base URL ending in /api and the path
api//x, buildRootUrl produces a doubled slash at the join (the remainder
after dropping "api/" starts with a slash), so the result is NOT the base
joined to the cleaned path with exactly one slash. -/
theorem C10_counterexample_api_double_slash :
    buildRootUrl (mkBaseUrl "example.com/api") "api//x" = "example.com/api//x" ∧
    buildRootUrl (mkBaseUrl "example.com/api") "api//x"
      ≠ mkBaseUrl "example.com/api" ++ "/" ++ stripLeadingSlashes "api//x" ∧
    headChar (strDropChars (stripLeadingSlashes "api//x") 4) = some '/' := by
  refine ⟨rfl, ?_, rfl⟩
  decide

/-- C10 witness: the amended theorem applied to a base URL with three
trailing slashes, an application id, a path with two leading slashes, an
all-slash path, and the /api-suffixed base with the path exactly "api",
discharging each hypothesis concretely. -/
theorem C10_witness :
    buildAppUrl (mkBaseUrl "https://api.yorauth.dev///") "app" "//users/register"
      = mkBaseUrl "https://api.yorauth.dev///" ++ "/"
          ++ ("api/v1/applications/" ++ "app" ++ "/" ++ stripLeadingSlashes "//users/register") ∧
    buildRootUrl (mkBaseUrl "https://api.yorauth.dev///") "//users/register"
      = mkBaseUrl "https://api.yorauth.dev///" ++ "/" ++ stripLeadingSlashes "//users/register" ∧
    buildRootUrl (mkBaseUrl "https://api.yorauth.dev///") "///"
      = mkBaseUrl "https://api.yorauth.dev///" ∧
    buildRootUrl (mkBaseUrl "example.com/api/") "api" = mkBaseUrl "example.com/api/" :=
  ⟨(C10_url_building "https://api.yorauth.dev///" "app" "//users/register").2.2.1,
   (C10_url_building "https://api.yorauth.dev///" "app" "//users/register").2.2.2.2.1
     (by decide) (by decide),
   (C10_url_building "https://api.yorauth.dev///" "app" "///").2.2.2.1 (by decide),
   (C10_url_building "example.com/api/" "app" "api").2.2.2.2.2.2 (by decide) (by decide)⟩

/-- C3: when the first dispatch fails with a 401 while a refresh token is
available and the refresh operation itself fails (any refresh error,
including a 401 from the refresh endpoint or a malformed envelope),
request fails with the original request's 401 error — the same
YorAuthError value, hence same message, code, status and details — and
the refresh failure is discarded. -/
theorem C3_refresh_failure_rethrows_original :
    ∀ (timeout : Nat) (env : Env) (e : YorAuthError),
      doRequest timeout env.first = .error e → e.status = 401 →
      env.refreshAvailable = true →
      doRefreshRun timeout env.refreshResp = .error () →
      (requestRun timeout env).1 = .error e := by
  intro t env e h1 h2 h3 h4
  simp [requestRun, h1, h2, h3, h4]

/-- C3 witness: concrete run where the refresh endpoint itself answers
401; the caller sees the original TOKEN_EXPIRED error, not the refresh
endpoint's INVALID_REFRESH_TOKEN error. -/
theorem C3_witness :
    doRequest 1000 envRefreshFails.first = .error err401 ∧
    err401.status = 401 ∧ envRefreshFails.refreshAvailable = true ∧
    doRefreshRun 1000 envRefreshFails.refreshResp = .error () ∧
    (requestRun 1000 envRefreshFails).1 = .error err401 :=
  ⟨rfl, rfl, rfl, rfl,
   C3_refresh_failure_rethrows_original 1000 envRefreshFails err401 rfl rfl rfl rfl⟩

/-- C2 (code bug): the try block in HttpClient.request wraps the retry as
well as the refresh, so after a SUCCESSFUL refresh a failing retry is
caught by the same catch and the ORIGINAL 401 error is rethrown — not the
retry's own error as the claim (and the source comment on the catch)
state.  Concretely: first dispatch 401 (TOKEN_EXPIRED), refresh succeeds,
retry answers 500 (SERVER_ERROR); request surfaces the 401. -/
theorem C2_retry_error_masked_by_original :
    doRequest 1000 envRetryFails.first = .error err401 ∧
    doRefreshRun 1000 envRetryFails.refreshResp = .ok refreshOkResult ∧
    doRequest 1000 envRetryFails.retry = .error err500 ∧
    (requestRun 1000 envRetryFails).1 = .error err401 ∧
    err500.status = 500 ∧ err401.status = 401 :=
  ⟨rfl, rfl, rfl, rfl, rfl, rfl⟩

/-- C2 partial positive direction, which does hold: when refresh succeeds
and the retry also succeeds, request returns the retry's success value. -/
theorem C2_retry_success_returned :
    ∀ (timeout : Nat) (env : Env) (e : YorAuthError) (r : TokenRefreshResult)
      (v : Option Json),
      doRequest timeout env.first = .error e → e.status = 401 →
      env.refreshAvailable = true →
      doRefreshRun timeout env.refreshResp = .ok r →
      doRequest timeout env.retry = .ok v →
      (requestRun timeout env).1 = .ok v := by
  intro t env e r v h1 h2 h3 h4 h5
  simp [requestRun, h1, h2, h3, h4, h5]

/-- C2 partial positive witness at the all-success run. -/
theorem C2_retry_success_witness :
    doRequest 1000 envHappyRefresh.first = .error err401 ∧
    (requestRun 1000 envHappyRefresh).1 = .ok (some (.obj [("data", .str "success")])) :=
  ⟨rfl,
   C2_retry_success_returned 1000 envHappyRefresh err401 refreshOkResult
     (some (.obj [("data", .str "success")])) rfl rfl rfl rfl rfl⟩

/-- C8: recovery is attempted only for a 401 with a refresh token
available; in every other failure case the first dispatch's error
propagates unchanged, with exactly one network dispatch, no refresh and
no retry. -/
theorem C8_no_recovery_propagates_unchanged :
    ∀ (timeout : Nat) (env : Env) (e : YorAuthError),
      doRequest timeout env.first = .error e →
      ¬(e.status = 401 ∧ env.refreshAvailable = true) →
      requestRun timeout env = (.error e, [.dispatchOwn]) := by
  intro t env e h1 h2
  simp [requestRun, h1, h2]

/-- C8 witness: a 404 propagates unchanged with one dispatch. -/
theorem C8_witness :
    doRequest 1000 env404.first = .error err404 ∧
    ¬(err404.status = 401 ∧ env404.refreshAvailable = true) ∧
    requestRun 1000 env404 = (.error err404, [.dispatchOwn]) :=
  ⟨rfl, by decide,
   C8_no_recovery_propagates_unchanged 1000 env404 err404 rfl (by decide)⟩

/-- C9: recovery never nests — the refresh call and the retry go through
doRequest, which performs no recovery, so every logical request performs
at most two dispatches of its own request and at most one refresh call,
whatever the three network outcomes are. -/
theorem C9_no_nested_recovery :
    ∀ (timeout : Nat) (env : Env),
      countOwn (requestRun timeout env).2 ≤ 2 ∧
      countRefresh (requestRun timeout env).2 ≤ 1 := by
  intro t env
  rcases hf : doRequest t env.first with e | v
  · by_cases h : e.status = 401 ∧ env.refreshAvailable = true
    · rcases hr : doRefreshRun t env.refreshResp with u | r
      · have : requestRun t env = (.error e, [.dispatchOwn, .dispatchRefresh]) := by
          simp [requestRun, hf, h, hr]
        rw [this]; refine ⟨?_, ?_⟩ <;> simp [countOwn, countRefresh, List.countP_cons, List.countP_nil]
      · rcases ht : doRequest t env.retry with e2 | v
        · have : requestRun t env =
              (.error e, [.dispatchOwn, .dispatchRefresh, .hookCall, .dispatchOwn]) := by
            simp [requestRun, hf, h, hr, ht]
          rw [this]; refine ⟨?_, ?_⟩ <;> simp [countOwn, countRefresh, List.countP_cons, List.countP_nil]
        · have : requestRun t env =
              (.ok v, [.dispatchOwn, .dispatchRefresh, .hookCall, .dispatchOwn]) := by
            simp [requestRun, hf, h, hr, ht]
          rw [this]; refine ⟨?_, ?_⟩ <;> simp [countOwn, countRefresh, List.countP_cons, List.countP_nil]
    · have : requestRun t env = (.error e, [.dispatchOwn]) := by
        simp [requestRun, hf, h]
      rw [this]; refine ⟨?_, ?_⟩ <;> simp [countOwn, countRefresh, List.countP_cons, List.countP_nil]
  · have : requestRun t env = (.ok v, [.dispatchOwn]) := by
      simp [requestRun, hf]
    rw [this]; refine ⟨?_, ?_⟩ <;> simp [countOwn, countRefresh, List.countP_cons, List.countP_nil]

/-- C6: for a first-dispatch response with status in [200,300): a 204
yields an empty (undefined) success value regardless of body content; a
JSON content type yields the parsed JSON body unchanged; a non-JSON
content type yields an empty (undefined) success value. -/
theorem C6_success_responses :
    ∀ (timeout : Nat) (env : Env) (st : Nat) (stx : String) (ct : Option String)
      (jb : Option Json) (tb : String),
      env.first = .response st stx ct jb tb → 200 ≤ st → st < 300 →
      ((st = 204 → (requestRun timeout env).1 = .ok none) ∧
       (st ≠ 204 → containsSubstr (ct.getD "") "application/json" = true →
          ∀ j, jb = some j → (requestRun timeout env).1 = .ok (some j)) ∧
       (st ≠ 204 → containsSubstr (ct.getD "") "application/json" = false →
          (requestRun timeout env).1 = .ok none)) := by
  intro t env st stx ct jb tb hf h1 h2
  refine ⟨?_, ?_, ?_⟩
  · intro h204
    have : doRequest t env.first = .ok none := by
      rw [hf]; simp [doRequest, h204]
    simp [requestRun, this]
  · intro h204 hct j hj
    have : doRequest t env.first = .ok (some j) := by
      rw [hf]; simp [doRequest, h204, hct, hj, h1, h2]
    simp [requestRun, this]
  · intro h204 hct
    have : doRequest t env.first = .ok none := by
      rw [hf]; simp [doRequest, h204, hct, h1, h2]
    simp [requestRun, this]

/-- C6 witness: the three cases at concrete responses (a 204 with a junk
text body, a 200 JSON body, and a 200 text/html response). -/
theorem C6_witness :
    (requestRun 1000 env204).1 = .ok none ∧
    (requestRun 1000 env200).1 = .ok (some (.obj [("data", .str "success")])) ∧
    (requestRun 1000 env200Text).1 = .ok none :=
  ⟨(C6_success_responses 1000 env204 204 "No Content" (some "text/plain") none "junk"
      rfl (by decide) (by decide)).1 rfl,
   (C6_success_responses 1000 env200 200 "OK" (some "application/json")
      (some (.obj [("data", .str "success")])) "" rfl (by decide) (by decide)).2.1
      (by decide) rfl _ rfl,
   (C6_success_responses 1000 env200Text 200 "OK" (some "text/html") none "<html></html>"
      rfl (by decide) (by decide)).2.2 (by decide) rfl⟩

/-- C7: a dispatch with no HTTP response is wrapped, never surfaced raw:
an aborted call (timeout fired) yields REQUEST_TIMEOUT with status 0 and
a message containing the configured timeout value; any other failure
yields NETWORK_ERROR with status 0 and the underlying message when one
exists, else the generic unknown-error message. -/
theorem C7_timeout_and_network_wrapping :
    ∀ (timeout : Nat) (env : Env),
      (env.first = .abortError →
        (requestRun timeout env).1 =
          .error ⟨.str ("Request timed out after " ++ toString timeout ++ "ms"),
                  .str "REQUEST_TIMEOUT", 0, none⟩ ∧
        ∃ pre post, "Request timed out after " ++ toString timeout ++ "ms"
            = pre ++ toString timeout ++ post) ∧
      (∀ m, env.first = .failure (some m) →
        (requestRun timeout env).1 = .error ⟨.str m, .str "NETWORK_ERROR", 0, none⟩) ∧
      (env.first = .failure none →
        (requestRun timeout env).1 =
          .error ⟨.str "An unknown error occurred", .str "NETWORK_ERROR", 0, none⟩) := by
  intro t env
  refine ⟨?_, ?_, ?_⟩
  · intro hf
    constructor
    · have : doRequest t env.first =
          .error ⟨.str ("Request timed out after " ++ toString t ++ "ms"),
                  .str "REQUEST_TIMEOUT", 0, none⟩ := by
        rw [hf]; rfl
      simp [requestRun, this]
    · exact ⟨"Request timed out after ", "ms", rfl⟩
  · intro m hf
    have : doRequest t env.first = .error ⟨.str m, .str "NETWORK_ERROR", 0, none⟩ := by
      rw [hf]; rfl
    simp [requestRun, this]
  · intro hf
    have : doRequest t env.first =
        .error ⟨.str "An unknown error occurred", .str "NETWORK_ERROR", 0, none⟩ := by
      rw [hf]; rfl
    simp [requestRun, this]

/-- C7 witness: a timed-out dispatch and a connection failure at concrete
environments. -/
theorem C7_witness :
    (requestRun 100 envTimeout).1 =
      .error ⟨.str ("Request timed out after " ++ toString 100 ++ "ms"),
              .str "REQUEST_TIMEOUT", 0, none⟩ ∧
    (requestRun 100 envNetErr).1 =
      .error ⟨.str "connect ECONNREFUSED", .str "NETWORK_ERROR", 0, none⟩ :=
  ⟨((C7_timeout_and_network_wrapping 100 envTimeout).1 rfl).1,
   (C7_timeout_and_network_wrapping 100 envNetErr).2.1 "connect ECONNREFUSED" rfl⟩

/-- A defined property read forces the value to be an object. -/
theorem jsGet_some_obj :
    ∀ (body : Json) (k : String) (v : Json), jsGet body k = some v →
      ∃ fs, body = Json.obj fs := by
  intro body k v h
  cases body <;> simp [jsGet] at h
  · exact ⟨_, rfl⟩

/-- An object-or-array test succeeding forces the property to be defined. -/
theorem isObjTruthy_some :
    ∀ (x : Option Json), isObjTruthy x = true → ∃ eo, x = some eo := by
  intro x h
  cases x with
  | none => simp [isObjTruthy] at h
  | some eo => exact ⟨eo, rfl⟩

/-- Shape 1 of the translator: a truthy object (or array) under the
top-level error key wins. -/
theorem handleError_objerr :
    ∀ (st : Nat) (stx tb : String) (fs : List (String × Json)) (eo : Json),
      jsGet (.obj fs) "error" = some eo → isObjTruthy (some eo) = true →
      handleErrorResponse st stx true (some (.obj fs)) tb =
        .ok ⟨jsNullish (jsGet eo "message") (.str stx),
             jsNullish (jsGet eo "code") (.str ("HTTP_" ++ toString st)),
             st, jsGet eo "details"⟩ := by
  intro st stx tb fs eo hE hobj
  cases eo <;> simp [isObjTruthy] at hobj <;> simp [handleErrorResponse, hE]

/-- Shape 2 of the translator: no error object, truthy top-level message
and errors fields give the validation error. -/
theorem handleError_validation :
    ∀ (st : Nat) (stx tb : String) (body : Json),
      isObjTruthy (jsGet body "error") = false →
      optTruthy (jsGet body "message") = true →
      optTruthy (jsGet body "errors") = true →
      handleErrorResponse st stx true (some body) tb =
        .ok ⟨(jsGet body "message").getD .null, .str "VALIDATION_ERROR",
             st, jsGet body "errors"⟩ := by
  intro st stx tb body hOf hm herr
  have hsome : ∃ m, jsGet body "message" = some m := by
    cases hmm : jsGet body "message" with
    | none => rw [hmm] at hm; simp [optTruthy] at hm
    | some m => exact ⟨m, rfl⟩
  obtain ⟨m0, hm0⟩ := hsome
  obtain ⟨fs, rfl⟩ := jsGet_some_obj body "message" m0 hm0
  cases hE : jsGet (.obj fs) "error" with
  | none => simp [handleErrorResponse, hE, hm, herr]
  | some eo =>
    rw [hE] at hOf
    cases eo <;> simp [isObjTruthy] at hOf <;> simp [handleErrorResponse, hE, hm, herr]

/-- Shape 3 of the translator: no error object, not the validation shape,
a top-level string error gives the OIDC-style error. -/
theorem handleError_oidc :
    ∀ (st : Nat) (stx tb : String) (fs : List (String × Json)) (s : String),
      jsGet (.obj fs) "error" = some (.str s) →
      ¬(optTruthy (jsGet (.obj fs) "message") = true ∧
        optTruthy (jsGet (.obj fs) "errors") = true) →
      handleErrorResponse st stx true (some (.obj fs)) tb =
        .ok ⟨jsNullish (jsGet (.obj fs) "error_description") (.str s), .str s,
             st, none⟩ := by
  intro st stx tb fs s hE hV
  have hv : (optTruthy (jsGet (.obj fs) "message")
      && optTruthy (jsGet (.obj fs) "errors")) = false := by
    cases hx : optTruthy (jsGet (.obj fs) "message") <;>
      cases hy : optTruthy (jsGet (.obj fs) "errors") <;> simp_all
  simp [handleErrorResponse, hE, hv]

/-- Shape 4 of the translator: none of the first three shapes matched. -/
theorem handleError_fallback :
    ∀ (st : Nat) (stx tb : String) (body : Json), body ≠ .null →
      isObjTruthy (jsGet body "error") = false →
      ¬(optTruthy (jsGet body "message") = true ∧
        optTruthy (jsGet body "errors") = true) →
      (∀ s, jsGet body "error" ≠ some (.str s)) →
      handleErrorResponse st stx true (some body) tb =
        .ok ⟨jsNullish (jsGet body "message") (.str stx),
             .str ("HTTP_" ++ toString st), st, none⟩ := by
  intro st stx tb body hnn hOf hV hS
  have hv : (optTruthy (jsGet body "message")
      && optTruthy (jsGet body "errors")) = false := by
    cases hx : optTruthy (jsGet body "message") <;>
      cases hy : optTruthy (jsGet body "errors") <;> simp_all
  cases body with
  | null => exact absurd rfl hnn
  | bool b => rfl
  | num n => rfl
  | str s => rfl
  | arr xs => rfl
  | obj fs =>
    cases hE : jsGet (.obj fs) "error" with
    | none => simp [handleErrorResponse, hE, hv]
    | some eo =>
      rw [hE] at hOf
      cases eo with
      | null => simp [handleErrorResponse, hE, hv]
      | bool b => simp [handleErrorResponse, hE, hv]
      | num n => simp [handleErrorResponse, hE, hv]
      | str s => exact absurd hE (hS s)
      | arr xs => simp [isObjTruthy] at hOf
      | obj fs2 => simp [isObjTruthy] at hOf

/-- C5 (amended): for a response with status outside [200,300) and a JSON
content type whose body is any JSON value other than the literal null,
the translator builds the error by the four shapes in source order,
first match wins: (1) a truthy error object/array, (2) truthy top-level
message and errors, (3) a top-level string error, (4) the generic
fallback; the built error's status always equals the HTTP status, and a
success value is never returned for ANY body.  The one exception forced
by the counterexample: a JSON body that is the literal null crashes the
property access in the translator, and the crash is wrapped by doRequest
into NETWORK_ERROR with status 0. -/
theorem C5_error_translation :
    ∀ (timeout st : Nat) (stx : String) (ct : Option String) (tb : String),
      ¬(200 ≤ st ∧ st < 300) →
      containsSubstr (ct.getD "") "application/json" = true →
      ((∀ jb, ∃ e, doRequest timeout (.response st stx ct jb tb) = .error e) ∧
       (∀ body : Json, body ≠ .null →
          ∃ e, doRequest timeout (.response st stx ct (some body) tb) = .error e ∧
            e.status = st ∧
            ((∀ eo, jsGet body "error" = some eo → isObjTruthy (some eo) = true →
               e = ⟨jsNullish (jsGet eo "message") (.str stx),
                    jsNullish (jsGet eo "code") (.str ("HTTP_" ++ toString st)),
                    st, jsGet eo "details"⟩) ∧
             (isObjTruthy (jsGet body "error") = false →
              optTruthy (jsGet body "message") = true →
              optTruthy (jsGet body "errors") = true →
              ∀ m, jsGet body "message" = some m →
                e = ⟨m, .str "VALIDATION_ERROR", st, jsGet body "errors"⟩) ∧
             (isObjTruthy (jsGet body "error") = false →
              ¬(optTruthy (jsGet body "message") = true ∧
                optTruthy (jsGet body "errors") = true) →
              ∀ s, jsGet body "error" = some (.str s) →
                e = ⟨jsNullish (jsGet body "error_description") (.str s),
                     .str s, st, none⟩) ∧
             (isObjTruthy (jsGet body "error") = false →
              ¬(optTruthy (jsGet body "message") = true ∧
                optTruthy (jsGet body "errors") = true) →
              (∀ s, jsGet body "error" ≠ some (.str s)) →
                e = ⟨jsNullish (jsGet body "message") (.str stx),
                     .str ("HTTP_" ++ toString st), st, none⟩))) ∧
       (doRequest timeout (.response st stx ct (some .null) tb) =
          .error ⟨.str (rtMsg .nullAccess), .str "NETWORK_ERROR", 0, none⟩)) := by
  intro t st stx ct tb hout hct
  have h204 : st ≠ 204 := by
    intro h; subst h; exact hout (by decide)
  have hdr : ∀ jb, doRequest t (.response st stx ct jb tb) =
      (match handleErrorResponse st stx true jb tb with
       | .ok e => .error e
       | .error rt => .error ⟨.str (rtMsg rt), .str "NETWORK_ERROR", 0, none⟩) := by
    intro jb
    simp [doRequest, h204, hout, hct]
  refine ⟨?_, ?_, ?_⟩
  · intro jb
    rw [hdr jb]
    rcases hh : handleErrorResponse st stx true jb tb with rt | e <;> exact ⟨_, rfl⟩
  · intro body hnn
    by_cases hO : isObjTruthy (jsGet body "error") = true
    · obtain ⟨eo, hE⟩ := isObjTruthy_some _ hO
      obtain ⟨fs, rfl⟩ := jsGet_some_obj body "error" eo hE
      rw [hE] at hO
      refine ⟨⟨jsNullish (jsGet eo "message") (.str stx),
               jsNullish (jsGet eo "code") (.str ("HTTP_" ++ toString st)),
               st, jsGet eo "details"⟩, ?_, rfl, ?_, ?_, ?_, ?_⟩
      · rw [hdr (some (.obj fs)), handleError_objerr st stx tb fs eo hE hO]
      · intro eo2 hE2 _
        rw [hE] at hE2
        cases hE2
        rfl
      · intro hO2 _ _ _ _
        rw [hE] at hO2
        rw [hO] at hO2
        exact Bool.noConfusion hO2
      · intro hO2 _ _ _
        rw [hE] at hO2
        rw [hO] at hO2
        exact Bool.noConfusion hO2
      · intro hO2 _ _
        rw [hE] at hO2
        rw [hO] at hO2
        exact Bool.noConfusion hO2
    · have hOf : isObjTruthy (jsGet body "error") = false := by
        cases hx : isObjTruthy (jsGet body "error")
        · rfl
        · exact absurd hx hO
      by_cases hV : optTruthy (jsGet body "message") = true ∧
          optTruthy (jsGet body "errors") = true
      · obtain ⟨hm, herr⟩ := hV
        have hsome : ∃ m, jsGet body "message" = some m := by
          cases hmm : jsGet body "message" with
          | none => rw [hmm] at hm; simp [optTruthy] at hm
          | some m => exact ⟨m, rfl⟩
        obtain ⟨m0, hm0⟩ := hsome
        refine ⟨⟨m0, .str "VALIDATION_ERROR", st, jsGet body "errors"⟩,
                ?_, rfl, ?_, ?_, ?_, ?_⟩
        · rw [hdr (some body), handleError_validation st stx tb body hOf hm herr, hm0]
          rfl
        · intro eo hE2 hobj2
          rw [hE2] at hOf
          rw [hobj2] at hOf
          exact Bool.noConfusion hOf
        · intro _ _ _ m hm2
          rw [hm0] at hm2
          cases hm2
          rfl
        · intro _ hnv _ _
          exact absurd ⟨hm, herr⟩ hnv
        · intro _ hnv _
          exact absurd ⟨hm, herr⟩ hnv
      · by_cases hS : ∃ s, jsGet body "error" = some (.str s)
        · obtain ⟨s0, hE⟩ := hS
          obtain ⟨fs, rfl⟩ := jsGet_some_obj body "error" (.str s0) hE
          refine ⟨⟨jsNullish (jsGet (Json.obj fs) "error_description") (.str s0),
                   .str s0, st, none⟩, ?_, rfl, ?_, ?_, ?_, ?_⟩
          · rw [hdr (some (.obj fs)), handleError_oidc st stx tb fs s0 hE hV]
          · intro eo2 hE2 hobj2
            rw [hE] at hE2
            cases hE2
            exact Bool.noConfusion hobj2
          · intro _ h2 h3 _ _
            exact absurd ⟨h2, h3⟩ hV
          · intro _ _ s1 hs1
            rw [hE] at hs1
            cases hs1
            rfl
          · intro _ _ hno
            exact absurd hE (hno s0)
        · push_neg at hS
          refine ⟨⟨jsNullish (jsGet body "message") (.str stx),
                   .str ("HTTP_" ++ toString st), st, none⟩, ?_, rfl, ?_, ?_, ?_, ?_⟩
          · rw [hdr (some body), handleError_fallback st stx tb body hnn hOf hV hS]
          · intro eo2 hE2 hobj2
            rw [hE2] at hOf
            rw [hobj2] at hOf
            exact Bool.noConfusion hOf
          · intro _ h2 h3 _ _
            exact absurd ⟨h2, h3⟩ hV
          · intro _ _ s hs
            exact absurd hs (hS s)
          · intro _ _ _
            rfl
  · rw [hdr (some .null)]
    rfl

/-- C5 counterexample: a 400 response with JSON content type whose body
is the JSON literal null.  The claim as stated requires an Operation
Error whose status equals the HTTP status (400) with code HTTP_400; the
code instead crashes reading `body["error"]` on null and surfaces
NETWORK_ERROR with status 0. -/
theorem C5_counterexample_null_body :
    doRequest 1000 respNullBody =
      .error ⟨.str (rtMsg .nullAccess), .str "NETWORK_ERROR", 0, none⟩ ∧
    (0 : Nat) ≠ 400 := ⟨rfl, by decide⟩

/-- C5 witness: the amended theorem applied at a concrete 422 validation
response, with every hypothesis discharged concretely. -/
theorem C5_witness :
    doRequest 1000 (.response 422 "Unprocessable Content" (some "application/json")
        (some bodyValidation) "") =
      .error ⟨.str "Validation failed", .str "VALIDATION_ERROR", 422,
              some (.obj [("email", .arr [.str "The email field is required."])])⟩ := by
  have h := (C5_error_translation 1000 422 "Unprocessable Content"
      (some "application/json") "" (by decide) (by decide)).2.1 bodyValidation
      (fun hx => Json.noConfusion hx)
  obtain ⟨e, he, hst, hc1, hc2, hc3, hc4⟩ := h
  have h2 : e = ⟨.str "Validation failed", .str "VALIDATION_ERROR", 422,
      some (.obj [("email", .arr [.str "The email field is required."])])⟩ :=
    (hc2 rfl rfl rfl (.str "Validation failed") rfl).trans rfl
  rw [he, h2]

/-- Balance invariant: the number of refresh calls issued equals the
number of resolutions, plus one while a refresh is pending — so a second
refresh call can only be issued after the previous one resolved. -/
theorem reach_call_balance {n : Nat} {s : Sys n} (h : Reach s) :
    countCalls s.trace =
      countResolves s.trace + (if s.pending = true then 1 else 0) := by
  induction h with
  | init => rfl
  | step hr hstep ih =>
    cases hstep with
    | respOk i v hin => simpa using ih
    | respErrNoRecover i e hin => simpa using ih
    | obsCreate i e hin he hp =>
      rw [hp] at ih
      simp [countCalls, countResolves, List.countP_cons, isCall, isResolveEv] at ih ⊢
      omega
    | obsJoin i e hin he hp =>
      rw [hp] at ih
      simp [countCalls, countResolves, List.countP_cons, isCall, isResolveEv] at ih ⊢
      omega
    | resolve o hp =>
      rw [hp] at ih
      simp [countCalls, countResolves, List.countP_cons, isCall, isResolveEv] at ih ⊢
      omega
    | wakeOk i e r hin =>
      simp [countCalls, countResolves, List.countP_cons, isCall, isResolveEv] at ih ⊢
      omega
    | wakeErr i e hin => simpa using ih
    | retryDone i e r out hin => simpa using ih

/-- Every refresh outcome a task has adopted was broadcast by a resolve
event recorded in the trace. -/
theorem reach_outcome_resolved {n : Nat} {s : Sys n} (h : Reach s) :
    ∀ (i : Fin n) (o : ROutcome), taskOutcome (s.tasks i) = some o →
      CEv.resolve o ∈ s.trace := by
  induction h with
  | init => intro i o hio; simp [Sys.init, taskOutcome] at hio
  | step hr hstep ih =>
    cases hstep with
    | respOk i v hin =>
      intro j o hj
      dsimp only at hj ⊢
      by_cases hij : j = i
      · subst hij
        rw [Function.update_same] at hj
        simp [taskOutcome] at hj
      · rw [Function.update_noteq hij] at hj
        exact ih j o hj
    | respErrNoRecover i e hin =>
      intro j o hj
      dsimp only at hj ⊢
      by_cases hij : j = i
      · subst hij
        rw [Function.update_same] at hj
        simp [taskOutcome] at hj
      · rw [Function.update_noteq hij] at hj
        exact ih j o hj
    | obsCreate i e hin he hp =>
      intro j o hj
      dsimp only at hj ⊢
      by_cases hij : j = i
      · subst hij
        rw [Function.update_same] at hj
        simp [taskOutcome] at hj
      · rw [Function.update_noteq hij] at hj
        exact List.mem_cons_of_mem _ (List.mem_cons_of_mem _ (ih j o hj))
    | obsJoin i e hin he hp =>
      intro j o hj
      dsimp only at hj ⊢
      by_cases hij : j = i
      · subst hij
        rw [Function.update_same] at hj
        simp [taskOutcome] at hj
      · rw [Function.update_noteq hij] at hj
        exact List.mem_cons_of_mem _ (ih j o hj)
    | resolve o hp =>
      rename_i sp
      intro j o2 hj
      dsimp only at hj ⊢
      cases hts : sp.tasks j with
      | inflight => rw [hts] at hj; simp [deliver, taskOutcome] at hj
      | waiting e0 =>
        rw [hts] at hj
        simp [deliver, taskOutcome] at hj
        subst hj
        exact List.mem_cons_self _ _
      | resumed e0 o0 =>
        rw [hts] at hj
        simp [deliver, taskOutcome] at hj
        subst hj
        exact List.mem_cons_of_mem _ (ih j o0 (by rw [hts]; rfl))
      | retrying e0 r0 =>
        rw [hts] at hj
        simp [deliver, taskOutcome] at hj
        subst hj
        exact List.mem_cons_of_mem _ (ih j _ (by rw [hts]; rfl))
      | finished res u =>
        rw [hts] at hj
        simp [deliver, taskOutcome] at hj
        exact List.mem_cons_of_mem _ (ih j o2 (by rw [hts]; exact hj))
    | wakeOk i e r hin =>
      intro j o hj
      dsimp only at hj ⊢
      by_cases hij : j = i
      · subst hij
        rw [Function.update_same] at hj
        simp [taskOutcome] at hj
        subst hj
        exact List.mem_cons_of_mem _
          (List.mem_cons_of_mem _ (ih j (.ok r) (by rw [hin]; rfl)))
      · rw [Function.update_noteq hij] at hj
        exact List.mem_cons_of_mem _ (List.mem_cons_of_mem _ (ih j o hj))
    | wakeErr i e hin =>
      intro j o hj
      dsimp only at hj ⊢
      by_cases hij : j = i
      · subst hij
        rw [Function.update_same] at hj
        simp [taskOutcome] at hj
        subst hj
        exact ih j .err (by rw [hin]; rfl)
      · rw [Function.update_noteq hij] at hj
        exact ih j o hj
    | retryDone i e r out hin =>
      intro j o hj
      dsimp only at hj ⊢
      by_cases hij : j = i
      · subst hij
        rw [Function.update_same] at hj
        simp [taskOutcome] at hj
        subst hj
        exact ih j (.ok r) (by rw [hin]; rfl)
      · rw [Function.update_noteq hij] at hj
        exact ih j o hj

/-- Peeling one event preserves the all-observations-before-resolutions
property of the remaining (older) trace. -/
theorem obsBeforeResolves_tail {n : Nat} {e : CEv n} {l : List (CEv n)}
    (h : obsBeforeResolves (e :: l) = true) : obsBeforeResolves l = true := by
  cases e with
  | obs i => exact (Bool.and_eq_true_iff.mp h).2
  | refreshCall => exact h
  | resolve o => exact h
  | hookEv i => exact h
  | retryDispatch i => exact h

/-- An observation event at the head means no resolve is older than it. -/
theorem obsBeforeResolves_head {n : Nat} {i : Fin n} {l : List (CEv n)}
    (h : obsBeforeResolves (CEv.obs i :: l) = true) : l.any isResolveEv = false := by
  have h1 := (Bool.and_eq_true_iff.mp h).1
  cases ha : l.any isResolveEv
  · rfl
  · rw [ha] at h1; exact Bool.noConfusion h1

/-- A trace with no resolve events has resolve count zero. -/
theorem countResolves_eq_zero {n : Nat} {l : List (CEv n)}
    (h : l.any isResolveEv = false) : countResolves l = 0 := by
  rw [countResolves, List.countP_eq_zero]
  intro a ha hpa
  have : l.any isResolveEv = true := List.any_eq_true.mpr ⟨a, ha, hpa⟩
  rw [h] at this
  exact Bool.noConfusion this

/-- Once a 401 observation entered recovery, at least one refresh call
was issued. -/
theorem reach_obs_implies_call {n : Nat} {s : Sys n} (h : Reach s) :
    1 ≤ countObs s.trace → 1 ≤ countCalls s.trace := by
  induction h with
  | init => intro hobs; simp [Sys.init, countObs] at hobs
  | step hr hstep ih =>
    cases hstep with
    | respOk i v hin => exact ih
    | respErrNoRecover i e hin => exact ih
    | obsCreate i e hin he hp =>
      rename_i sp
      intro _
      dsimp only
      have h1 : countCalls (CEv.refreshCall :: CEv.obs i :: sp.trace)
          = countCalls sp.trace + 1 := by
        simp [countCalls, List.countP_cons, isCall]
      omega
    | obsJoin i e hin he hp =>
      rename_i sp
      intro _
      dsimp only
      have hb := reach_call_balance hr
      rw [hp] at hb
      rw [if_pos rfl] at hb
      have h1 : countCalls (CEv.obs i :: sp.trace) = countCalls sp.trace := by
        simp [countCalls, List.countP_cons, isCall]
      omega
    | resolve o hp =>
      rename_i sp
      intro hobs
      dsimp only at hobs ⊢
      have h1 : countObs (CEv.resolve o :: sp.trace) = countObs sp.trace := by
        simp [countObs, List.countP_cons, isObs]
      have h2 : countCalls (CEv.resolve o :: sp.trace) = countCalls sp.trace := by
        simp [countCalls, List.countP_cons, isCall]
      rw [h1] at hobs
      rw [h2]
      exact ih hobs
    | wakeOk i e r hin =>
      rename_i sp
      intro hobs
      dsimp only at hobs ⊢
      have h1 : countObs (CEv.retryDispatch i :: CEv.hookEv i :: sp.trace)
          = countObs sp.trace := by
        simp [countObs, List.countP_cons, isObs]
      have h2 : countCalls (CEv.retryDispatch i :: CEv.hookEv i :: sp.trace)
          = countCalls sp.trace := by
        simp [countCalls, List.countP_cons, isCall]
      rw [h1] at hobs
      rw [h2]
      exact ih hobs
    | wakeErr i e hin => exact ih
    | retryDone i e r out hin => exact ih

/-- Under the all-observations-before-resolutions hypothesis, at most one
resolve ever happens, and none while a refresh is still pending. -/
theorem reach_resolves_bound {n : Nat} {s : Sys n} (h : Reach s) :
    obsBeforeResolves s.trace = true →
      countResolves s.trace ≤ 1 ∧
        (s.pending = true → countResolves s.trace = 0) := by
  induction h with
  | init => intro _; exact ⟨by simp [Sys.init, countResolves], fun _ => rfl⟩
  | step hr hstep ih =>
    cases hstep with
    | respOk i v hin => exact ih
    | respErrNoRecover i e hin => exact ih
    | obsCreate i e hin he hp =>
      rename_i sp
      intro hob
      dsimp only at hob ⊢
      have hz := countResolves_eq_zero (obsBeforeResolves_head (obsBeforeResolves_tail hob))
      have hcr : countResolves (CEv.refreshCall :: CEv.obs i :: sp.trace)
          = countResolves sp.trace := by
        simp [countResolves, List.countP_cons, isResolveEv]
      exact ⟨by omega, fun _ => by omega⟩
    | obsJoin i e hin he hp =>
      rename_i sp
      intro hob
      dsimp only at hob ⊢
      have hz := countResolves_eq_zero (obsBeforeResolves_head hob)
      have hcr : countResolves (CEv.obs i :: sp.trace) = countResolves sp.trace := by
        simp [countResolves, List.countP_cons, isResolveEv]
      exact ⟨by omega, fun _ => by omega⟩
    | resolve o hp =>
      rename_i sp
      intro hob
      dsimp only at hob ⊢
      have hz := (ih (obsBeforeResolves_tail hob)).2 hp
      have hcr : countResolves (CEv.resolve o :: sp.trace)
          = countResolves sp.trace + 1 := by
        simp [countResolves, List.countP_cons, isResolveEv]
      exact ⟨by omega, fun hfalse => Bool.noConfusion hfalse⟩
    | wakeOk i e r hin =>
      rename_i sp
      intro hob
      dsimp only at hob ⊢
      have hih := ih (obsBeforeResolves_tail (obsBeforeResolves_tail hob))
      have hcr : countResolves (CEv.retryDispatch i :: CEv.hookEv i :: sp.trace)
          = countResolves sp.trace := by
        simp [countResolves, List.countP_cons, isResolveEv]
      refine ⟨by omega, fun hpend => ?_⟩
      have := hih.2 hpend
      omega
    | wakeErr i e hin => exact ih
    | retryDone i e r out hin => exact ih

/-- At most one resolve event in a trace pins its payload. -/
theorem resolve_unique {n : Nat} :
    ∀ (l : List (CEv n)) (a b : ROutcome),
      countResolves l ≤ 1 → CEv.resolve a ∈ l → CEv.resolve b ∈ l → a = b := by
  intro l
  induction l with
  | nil => intro a b _ ha _; exact absurd ha (List.not_mem_nil _)
  | cons e t ih =>
    intro a b hc ha hb
    rw [List.mem_cons] at ha hb
    by_cases he : isResolveEv e = true
    · have ht : countResolves t = 0 := by
        have : countResolves (e :: t) = countResolves t + 1 := by
          simp [countResolves, List.countP_cons, he]
        rw [this] at hc
        omega
      have hnm : ∀ o : ROutcome, CEv.resolve o ∈ t → False := by
        intro o hmem
        have := (List.countP_eq_zero.mp ht) _ hmem
        simp [isResolveEv] at this
      rcases ha with ha | ha
      · rcases hb with hb | hb
        · rw [← ha] at hb
          injection hb.symm
        · exact absurd hb (hnm b)
      · exact absurd ha (hnm a)
    · have hne : ∀ o : ROutcome, CEv.resolve o = e → False := by
        intro o ho
        rw [← ho] at he
        simp [isResolveEv] at he
      have ht : countResolves (e :: t) = countResolves t := by
        have hf : isResolveEv e = false := by
          cases hx : isResolveEv e
          · rfl
          · exact absurd hx he
        simp [countResolves, List.countP_cons, hf]
      rcases ha with ha | ha
      · exact absurd ha (hne a)
      · rcases hb with hb | hb
        · exact absurd hb (hne b)
        · exact ih a b (by rw [ht] at hc; exact hc) ha hb

/-- C1: refresh deduplication under concurrency.  In every reachable
state of n concurrent logical requests: (a) two refresh calls are never
concurrently in flight — the number of refresh calls issued never
exceeds the number of completed resolutions plus one; and (b) whenever
every 401 observation happened while the first observer's refresh was
still pending (no resolution older than an observation), then as soon as
at least one request entered recovery EXACTLY one refresh network call
has been issued, and any two tasks that adopted a refresh outcome
adopted the SAME outcome (the same success result, or the same shared
failure). -/
theorem C1_refresh_deduplication :
    ∀ (n : Nat) (s : Sys n), Reach s →
      countCalls s.trace ≤ countResolves s.trace + 1 ∧
      (obsBeforeResolves s.trace = true →
        (1 ≤ countObs s.trace → countCalls s.trace = 1) ∧
        (∀ (i j : Fin n) (o1 o2 : ROutcome),
          taskOutcome (s.tasks i) = some o1 → taskOutcome (s.tasks j) = some o2 →
          o1 = o2)) := by
  intro n s h
  have hb := reach_call_balance h
  constructor
  · cases hpend : s.pending
    · rw [hpend] at hb
      simp only [Bool.false_eq_true, if_false] at hb
      omega
    · rw [hpend] at hb
      rw [if_pos rfl] at hb
      omega
  · intro hobr
    have hres := reach_resolves_bound h hobr
    constructor
    · intro hobs
      have hoc := reach_obs_implies_call h hobs
      cases hpend : s.pending
      · rw [hpend] at hb
        simp only [Bool.false_eq_true, if_false] at hb
        have := hres.1
        omega
      · rw [hpend] at hb
        rw [if_pos rfl] at hb
        have := hres.2 hpend
        omega
    · intro i j o1 o2 h1 h2
      exact resolve_unique s.trace o1 o2 hres.1
        (reach_outcome_resolved h i o1 h1) (reach_outcome_resolved h j o2 h2)

/-- The two-request interleaving cs1..cs7 is a real execution. -/
theorem reach_cs7 : Reach cs7 := by
  have h1 : Step (Sys.init 2) cs1 := Step.obsCreate (Sys.init 2) 0 err401 rfl rfl rfl
  have h2 : Step cs1 cs2 := Step.obsJoin cs1 1 err401 rfl rfl rfl
  have h3 : Step cs2 cs3 := Step.resolve cs2 (.ok refreshOkResult) rfl
  have h4 : Step cs3 cs4 := Step.wakeOk cs3 0 err401 refreshOkResult rfl
  have h5 : Step cs4 cs5 := Step.wakeOk cs4 1 err401 refreshOkResult rfl
  have h6 : Step cs5 cs6 :=
    Step.retryDone cs5 0 err401 refreshOkResult (.ok (some (.str "ok0"))) rfl
  have h7 : Step cs6 cs7 :=
    Step.retryDone cs6 1 err401 refreshOkResult (.ok (some (.str "ok1"))) rfl
  exact ((((((Reach.init.step h1).step h2).step h3).step h4).step h5).step h6).step h7

/-- C1 witness: the deduplication theorem applied to the concrete
two-request execution — both requests observed the 401 before the
resolve, and exactly one refresh call appears in the trace. -/
theorem C1_witness :
    Reach cs7 ∧ obsBeforeResolves cs7.trace = true ∧ 1 ≤ countObs cs7.trace ∧
    countCalls cs7.trace = 1 :=
  ⟨reach_cs7, rfl, by decide,
   ((C1_refresh_deduplication 2 cs7 reach_cs7).2 rfl).1 (by decide)⟩

/-- Delivering a refresh resolution never performs a hook invocation. -/
theorem hookCnt_deliver (o : ROutcome) (t : TState) :
    hookCnt (deliver o t) = hookCnt t := by
  cases t <;> rfl

/-- Hook-count invariant: the number of onRefreshSuccess invocations
performed by task i equals one exactly when task i has passed the
refresh-success point of its recovery, zero otherwise. -/
theorem reach_hook_count {n : Nat} {s : Sys n} (h : Reach s) :
    ∀ i, countHookI i s.trace = hookCnt (s.tasks i) := by
  induction h with
  | init => intro i; rfl
  | step hr hstep ih =>
    cases hstep with
    | respOk i v hin =>
      intro j
      dsimp only
      by_cases hij : j = i
      · subst hij
        rw [Function.update_same, ih j, hin]
        rfl
      · rw [Function.update_noteq hij]
        exact ih j
    | respErrNoRecover i e hin =>
      intro j
      dsimp only
      by_cases hij : j = i
      · subst hij
        rw [Function.update_same, ih j, hin]
        rfl
      · rw [Function.update_noteq hij]
        exact ih j
    | obsCreate i e hin he hp =>
      rename_i sp
      intro j
      dsimp only
      have htr : countHookI j (CEv.refreshCall :: CEv.obs i :: sp.trace)
          = countHookI j sp.trace := by
        simp [countHookI, List.countP_cons]
      rw [htr]
      by_cases hij : j = i
      · subst hij
        rw [Function.update_same, ih j, hin]
        rfl
      · rw [Function.update_noteq hij]
        exact ih j
    | obsJoin i e hin he hp =>
      rename_i sp
      intro j
      dsimp only
      have htr : countHookI j (CEv.obs i :: sp.trace) = countHookI j sp.trace := by
        simp [countHookI, List.countP_cons]
      rw [htr]
      by_cases hij : j = i
      · subst hij
        rw [Function.update_same, ih j, hin]
        rfl
      · rw [Function.update_noteq hij]
        exact ih j
    | resolve o hp =>
      rename_i sp
      intro j
      dsimp only
      have htr : countHookI j (CEv.resolve o :: sp.trace) = countHookI j sp.trace := by
        simp [countHookI, List.countP_cons]
      rw [htr, hookCnt_deliver]
      exact ih j
    | wakeOk i e r hin =>
      rename_i sp
      intro j
      dsimp only
      by_cases hij : j = i
      · subst hij
        have htr : countHookI j (CEv.retryDispatch j :: CEv.hookEv j :: sp.trace)
            = countHookI j sp.trace + 1 := by
          simp [countHookI, List.countP_cons]
        rw [htr, Function.update_same, ih j, hin]
        rfl
      · have htr : countHookI j (CEv.retryDispatch i :: CEv.hookEv i :: sp.trace)
            = countHookI j sp.trace := by
          have : (i == j) = false := by
            cases hx : i == j
            · rfl
            · exact absurd (eq_of_beq hx).symm hij
          simp [countHookI, List.countP_cons, this]
        rw [htr, Function.update_noteq hij]
        exact ih j
    | wakeErr i e hin =>
      intro j
      dsimp only
      by_cases hij : j = i
      · subst hij
        rw [Function.update_same, ih j, hin]
        rfl
      · rw [Function.update_noteq hij]
        exact ih j
    | retryDone i e r out hin =>
      intro j
      dsimp only
      by_cases hij : j = i
      · subst hij
        rw [Function.update_same, ih j, hin]
        cases out <;> rfl
      · rw [Function.update_noteq hij]
        exact ih j

/-- Ordering invariant: every retry dispatch in the trace is immediately
preceded, chronologically, by the same task's onRefreshSuccess
invocation. -/
theorem reach_hook_before_retry {n : Nat} {s : Sys n} (h : Reach s) :
    hookBeforeRetry s.trace = true := by
  induction h with
  | init => rfl
  | step hr hstep ih =>
    cases hstep with
    | respOk i v hin => exact ih
    | respErrNoRecover i e hin => exact ih
    | obsCreate i e hin he hp => exact ih
    | obsJoin i e hin he hp => exact ih
    | resolve o hp => exact ih
    | wakeOk i e r hin =>
      rename_i sp
      show ((i == i) && hookBeforeRetry sp.trace) = true
      rw [Bool.and_eq_true]
      exact ⟨by simp, ih⟩
    | wakeErr i e hin => exact ih
    | retryDone i e r out hin => exact ih

/-- C4 (amended): onRefreshSuccess is invoked exactly once per
RECOVERING REQUEST whose shared refresh succeeded — hence N times in
total when N concurrent requests share one successful refresh, not once
in total — and every invocation happens before that request's retry is
dispatched. -/
theorem C4_hook_per_recovering_request :
    ∀ (n : Nat) (s : Sys n), Reach s →
      (∀ i, countHookI i s.trace = hookCnt (s.tasks i)) ∧
      hookBeforeRetry s.trace = true := by
  intro n s h
  exact ⟨reach_hook_count h, reach_hook_before_retry h⟩

/-- C4 counterexample: in the concrete execution cs7 there is exactly one
refresh call and one (successful) resolution, yet onRefreshSuccess is
invoked twice — once by each of the two recovering requests — refuting
the claim that it is invoked exactly once in total per successful
refresh. -/
theorem C4_counterexample_two_hooks_one_refresh :
    Reach cs7 ∧ countCalls cs7.trace = 1 ∧ countResolves cs7.trace = 1 ∧
    countHooks cs7.trace = 2 := ⟨reach_cs7, rfl, rfl, rfl⟩

/-- C4 witness: the amended theorem applied to the concrete execution —
task 0 invoked the hook exactly once, and hooks precede retries. -/
theorem C4_witness :
    Reach cs7 ∧ countHookI 0 cs7.trace = 1 ∧ hookBeforeRetry cs7.trace = true :=
  ⟨reach_cs7, ((C4_hook_per_recovering_request 2 cs7 reach_cs7).1 0).trans rfl,
   (C4_hook_per_recovering_request 2 cs7 reach_cs7).2⟩
